import Mathlib

/-!
# Verification of the ReferenceConverter (type-literal / reference conversion)

Shallow embedding of `src/lib/converter/converters/types/reference.ts`:
the `ReferenceConverter` class with its `supportsNode` / `supportsType`
predicates, the type-literal path `convert`, and the two entry points
`convertNode` / `convertType`.

Collaborators of that file (the conversion `Context`, the declaration
walker `convertNode` of the node module, the registry dispatcher
`convertType` of the type module, the `createReferenceType` factory and
the pending-reference resolution pass) are not part of the excerpt; each
is modelled from the specification and carries a doc comment saying so.

Machine integers do not occur on the relevant paths; flag words are
modelled as `Nat` bit masks, identities (symbols, declarations, model
nodes) as `Nat` ids.
-/

/-- Syntax kinds distinguished by the converter (the cases of
`ts.SyntaxKind` the excerpt branches on, plus representatives for the
rest). -/
inductive NodeKind where
  | typeLiteral
  | objectLiteralExpression
  | functionType
  | other
deriving DecidableEq, Repr

/-- A front-end type as consumed by the converter (`ts.TypeReference`):
category flag word, optional owning symbol (by id; its flags and
declarations live in the `Program` table) and optional ordered type
arguments. -/
inductive TypeRef : Type where
  | mk (flags : Nat) (symbol : Option Nat) (typeArguments : Option (List TypeRef)) : TypeRef
deriving Repr

def TypeRef.flags : TypeRef → Nat
  | .mk f _ _ => f

def TypeRef.symbol : TypeRef → Option Nat
  | .mk _ s _ => s

def TypeRef.typeArguments : TypeRef → Option (List TypeRef)
  | .mk _ _ a => a

/-- A member (e.g. a property signature) of a syntax declaration: its
name and its declared type. -/
structure Member where
  name : String
  ty : TypeRef
deriving Repr

/-- A syntax declaration (`ts.Node` occurring in `symbol.declarations`):
identity, syntax kind, its own symbol (`declaration.symbol`), the symbol
of its parent node (`declaration.parent.symbol`) and its members. -/
structure Declaration where
  id : Nat
  kind : NodeKind
  symbol : Nat
  parentSymbol : Nat
  members : List Member
deriving Repr

/-- The data of one front-end symbol: its flag word and its syntax
declarations. -/
structure SymbolData where
  flags : Nat
  declarations : List Declaration
deriving Repr

/-- The symbol table supplied by the front end. -/
structure Program where
  symbols : List (Nat × SymbolData)
deriving Repr

def Program.getSymbol (p : Program) (s : Nat) : Option SymbolData :=
  (p.symbols.find? (fun e => e.1 == s)).map (fun e => e.2)

/-- `symbol.flags` of the symbol with id `s`; `0` when the table has no
entry (no category flags set). -/
def Program.symFlags (p : Program) (s : Nat) : Nat :=
  ((p.getSymbol s).map SymbolData.flags).getD 0

/-- The ids of all syntax declarations occurring in the program. -/
def progDeclIds (p : Program) : List Nat :=
  p.symbols.flatMap (fun e => e.2.declarations.map Declaration.id)

/- `ts.TypeFlags` constants as consumed by the converter. Only the bit
layout matters for the code under verification (each flag a distinct
single bit, `ObjectType` the union mask of the object-type category), so
the bits are numbered compactly rather than with TypeScript's exact
values. -/
namespace TypeFlags

protected def Any : Nat := 1

protected def String : Nat := 2

protected def Number : Nat := 4

protected def Boolean : Nat := 8

protected def Class : Nat := 16

protected def Interface : Nat := 32

protected def Reference : Nat := 64

protected def Tuple : Nat := 128

protected def Anonymous : Nat := 256

protected def ObjectType : Nat :=
  TypeFlags.Class ||| TypeFlags.Interface ||| TypeFlags.Reference |||
    TypeFlags.Tuple ||| TypeFlags.Anonymous

end TypeFlags

/- `ts.SymbolFlags` constants as consumed by the converter; distinct
single bits, numbered compactly (see the note on `TypeFlags`). -/
namespace SymbolFlags

protected def TypeLiteral : Nat := 16

protected def ObjectLiteral : Nat := 32

end SymbolFlags

/-- Resolution state of a reference type node: resolved to a model node,
still pending on a symbol, or the external/unknown marker set by the
resolution pass. -/
inductive RefState where
  | resolved (id : Nat)
  | pending
  | unknown
deriving DecidableEq, Repr

/-- A type node of the output model: intrinsic, reference (non-owning
pointer to a declaration node, by symbol and resolution state, optionally
with type arguments) or reflection type (wrapping an anonymous
type-literal declaration node by id). -/
inductive Ty : Type where
  | intrinsic (name : String)
  | reference (symbol : Nat) (target : RefState) (typeArguments : Option (List Ty))
  | reflection (declarationId : Nat)
deriving Repr

/-- Kinds of declaration reflections appearing in this development
(`ReflectionKind.TypeLiteral` is the one the converter assigns). -/
inductive ReflectionKind where
  | typeLiteral
  | property
  | module
deriving DecidableEq, Repr

/-- A declaration node of the output model (`DeclarationReflection`):
identity, kind, name, owning parent (by id) and its declared type. -/
structure DeclarationReflection where
  id : Nat
  kind : ReflectionKind
  name : String
  parent : Option Nat
  type : Option Ty
deriving Repr

/-- Observable effects of one conversion run, in order: registry
registration, the `EVENT_CREATE_DECLARATION` notification (with the
originating syntax node when known) and visit-stack discipline. -/
inductive Event where
  | register (symbol : Nat) (reflection : Nat)
  | createDeclaration (reflection : Nat) (node : Option Nat)
  | pushDecl (decl : Nat)
  | popDecl (decl : Nat)
deriving DecidableEq, Repr

/-- The conversion `Context`: current scope, the symbol-to-node registry,
the cycle-detection visit stack, the declaration nodes built so far, the
event trace and the next free node id. -/
structure Context where
  scope : Nat
  registry : List (Nat × Nat)
  visitStack : List Nat
  reflections : List DeclarationReflection
  trace : List Event
  nextId : Nat
deriving Repr

/-- Registry lookup; the most recent registration for a symbol wins. -/
def lookupRegistry (r : List (Nat × Nat)) (s : Nat) : Option Nat :=
  (r.find? (fun e => e.1 == s)).map (fun e => e.2)

/-- Modelled from the spec: Reference Resolution (`createReferenceType`
in the factories module, not part of the excerpt). If the symbol is
already registered the reference stores the existing declaration node's
id (resolved); otherwise it stores the symbol with a pending marker. -/
def createReferenceType (c : Context) (sym : Nat) : Ty :=
  match lookupRegistry c.registry sym with
  | some id => Ty.reference sym (RefState.resolved id) none
  | none => Ty.reference sym RefState.pending none

/-- `result.typeArguments = ...` on a reference type node. -/
def Ty.withTypeArguments : Ty → List Ty → Ty
  | Ty.reference s st _, args => Ty.reference s st (some args)
  | t, _ => t

/-- Assign the declared type of the model node with id `i`. -/
def setReflType (l : List DeclarationReflection) (i : Nat) (ty : Ty) :
    List DeclarationReflection :=
  l.map (fun r => if r.id == i then { r with type := some ty } else r)

/-- A type reference syntax node (`ts.TypeReferenceNode`): identity and
the explicit type-argument list of the source site, when present (each
argument given by its checked type). -/
structure TypeRefNode where
  id : Nat
  typeArguments : Option (List TypeRef)
deriving Repr

/-- `priority:number = -50` of the converter instance. -/
def ReferenceConverter.priority : Int := -50

/-- Embeds `ReferenceConverter.supportsNode` (reference.ts lines 29-31):
`!!(type.flags & ts.TypeFlags.ObjectType)`. -/
def ReferenceConverter.supportsNode (_c : Context) (_node : TypeRefNode) (t : TypeRef) : Bool :=
  t.flags &&& TypeFlags.ObjectType != 0

/-- Embeds `ReferenceConverter.supportsType` (reference.ts lines 37-39):
`!!(type.flags & ts.TypeFlags.ObjectType)`. -/
def ReferenceConverter.supportsType (_c : Context) (t : TypeRef) : Bool :=
  t.flags &&& TypeFlags.ObjectType != 0

/-- First-component decrease for the lexicographic termination measure. -/
theorem lexFuel {f1 f2 s1 s2 r1 r2 : Nat} (h : f1 < f2) :
    Prod.Lex (fun a b => a < b) (Prod.Lex (fun a b => a < b) (fun a b => a < b))
      (f1, s1, r1) (f2, s2, r2) :=
  Prod.Lex.left _ _ h

/-- Second-component decrease for the lexicographic termination measure. -/
theorem lexSize {f s1 s2 r1 r2 : Nat} (h : s1 < s2) :
    Prod.Lex (fun a b => a < b) (Prod.Lex (fun a b => a < b) (fun a b => a < b))
      (f, s1, r1) (f, s2, r2) :=
  Prod.Lex.right _ (Prod.Lex.left _ _ h)

/-- Third-component decrease for the lexicographic termination measure. -/
theorem lexRank {f s r1 r2 : Nat} (h : r1 < r2) :
    Prod.Lex (fun a b => a < b) (Prod.Lex (fun a b => a < b) (fun a b => a < b))
      (f, s, r1) (f, s, r2) :=
  Prod.Lex.right _ (Prod.Lex.right _ h)

theorem SymbolData.sizeOf_declarations_lt (sd : SymbolData) :
    sizeOf sd.declarations < sizeOf sd := by
  cases sd
  simp

theorem Declaration.sizeOf_members_lt (d : Declaration) :
    sizeOf d.members < sizeOf d := by
  cases d
  simp

theorem Member.sizeOf_ty_lt (m : Member) : sizeOf m.ty < sizeOf m := by
  cases m
  simp [Member.ty]

theorem TypeRef.sizeOf_args_lt (t : TypeRef) (args : List TypeRef)
    (h : t.typeArguments = some args) : sizeOf args < sizeOf t := by
  cases t with
  | mk f s a =>
    simp [TypeRef.typeArguments] at h
    subst h
    simp
    omega

mutual

/-- Worker of `ReferenceConverter.convert` after the symbol lookup (the
source method reads `symbol.declarations` off the symbol object; the
embedding passes the symbol's table entry `sd` explicitly). Embeds the
body of `convert` (reference.ts lines 64-90), the cycle-safe type-literal
path. The fuel argument bounds the nesting depth of literal conversions
only; the cycle check runs before any node is created or any fuel is
spent. -/
def convertSym (prog : Program) (fuel : Nat) (c : Context) (sym : Nat)
    (node : Option Nat) (sd : SymbolData) : Option (Ty × Context) :=
  match sd.declarations.find? (fun d => c.visitStack.contains d.id) with
  | some d =>
    if d.kind == NodeKind.typeLiteral || d.kind == NodeKind.objectLiteralExpression then
      some (createReferenceType c d.parentSymbol, c)
    else
      some (createReferenceType c d.symbol, c)
  | none =>
    let newId := c.nextId
    let decl : DeclarationReflection :=
      { id := newId, kind := ReflectionKind.typeLiteral, name := "__type",
        parent := some c.scope, type := none }
    let c1 : Context :=
      { c with nextId := newId + 1,
               reflections := c.reflections ++ [decl],
               registry := (sym, newId) :: c.registry,
               trace := c.trace ++ [Event.register sym newId, Event.createDeclaration newId node] }
    let c2 : Context := { c1 with scope := newId }
    match convertNodeList prog fuel sd.declarations c2 with
    | none => none
    | some c3 => some (Ty.reflection newId, { c3 with scope := c.scope })
termination_by (fuel, sizeOf sd, 6)
decreasing_by
  apply lexSize
  exact SymbolData.sizeOf_declarations_lt sd

/-- Modelled from the spec: the loop
`symbol.declarations.forEach((node) => convertNode(context, node))`
of the type-literal path, converting every syntax declaration of the
symbol as nested children. -/
def convertNodeList (prog : Program) (fuel : Nat) (l : List Declaration)
    (c : Context) : Option Context :=
  match l with
  | [] => some c
  | d :: rest =>
    match convertNode prog fuel d c with
    | none => none
    | some c' => convertNodeList prog fuel rest c'
termination_by (fuel, sizeOf l, 5)
decreasing_by
  · apply lexSize
    have h : sizeOf (d :: rest) = 1 + sizeOf d + sizeOf rest := by simp
    omega
  · apply lexSize
    have h : sizeOf (d :: rest) = 1 + sizeOf d + sizeOf rest := by simp
    omega

/-- Modelled from the spec: `convertNode` of the node module (the
declaration walker, not part of the excerpt). It pushes the declaration
on the Context's visit stack while it is mid-conversion, converts each
member as a child declaration node under the current scope (its declared
type going through the converter registry), and restores the stack. -/
def convertNode (prog : Program) (fuel : Nat) (d : Declaration) (c : Context) :
    Option Context :=
  let c1 : Context := { c with visitStack := d.id :: c.visitStack,
                               trace := c.trace ++ [Event.pushDecl d.id] }
  match convertMembers prog fuel d.members c1 with
  | none => none
  | some c2 =>
      some { c2 with visitStack := c.visitStack,
                     trace := c2.trace ++ [Event.popDecl d.id] }
termination_by (fuel, sizeOf d, 4)
decreasing_by
  apply lexSize
  exact Declaration.sizeOf_members_lt d

/-- Modelled from the spec: converting the members of a declaration being
walked. Each member becomes a child declaration node (one creation
notification each), whose declared type is converted through the
registry and then assigned. -/
def convertMembers (prog : Program) (fuel : Nat) (l : List Member) (c : Context) :
    Option Context :=
  match l with
  | [] => some c
  | m :: rest =>
    let newId := c.nextId
    let child : DeclarationReflection :=
      { id := newId, kind := ReflectionKind.property, name := m.name,
        parent := some c.scope, type := none }
    let c1 : Context :=
      { c with nextId := newId + 1, reflections := c.reflections ++ [child],
               trace := c.trace ++ [Event.createDeclaration newId none] }
    match convertType prog fuel m.ty c1 with
    | none => none
    | some (ty, c2) =>
      convertMembers prog fuel rest { c2 with reflections := setReflType c2.reflections newId ty }
termination_by (fuel, sizeOf l, 3)
decreasing_by
  · apply lexSize
    have h1 := Member.sizeOf_ty_lt m
    have h2 : sizeOf (m :: rest) = 1 + sizeOf m + sizeOf rest := by simp
    omega
  · apply lexSize
    have h : sizeOf (m :: rest) = 1 + sizeOf m + sizeOf rest := by simp
    omega

/-- Modelled from the spec: the Type Converter Registry dispatch
(`convertType` of the type module, not part of the excerpt). Converters
are tried in descending priority order and the first applicable one is
used; with the `ReferenceConverter` as the only registered converter this
applies it exactly when its predicate holds, falling back to the default
unknown/intrinsic conversion otherwise. -/
def convertType (prog : Program) (fuel : Nat) (t : TypeRef) (c : Context) :
    Option (Ty × Context) :=
  if ReferenceConverter.supportsType c t then
    ReferenceConverter.convertType prog fuel t c
  else
    some (Ty.intrinsic ("unknown"), c)
termination_by (fuel, sizeOf t, 2)
decreasing_by
  apply lexRank
  omega

/-- The type-literal branch of `convertNode`/`convertType`
(`this.convert(context, type.symbol, ...)`): symbol lookup plus the
cycle-safe worker, spending one unit of fuel per literal nesting level. -/
def convertTypeLit (prog : Program) (fuel : Nat) (s : Nat) (c : Context) :
    Option (Ty × Context) :=
  match fuel with
  | 0 => none
  | f + 1 =>
    match prog.getSymbol s with
    | none => none
    | some sd => convertSym prog f c s none sd
termination_by (fuel, 0, 0)
decreasing_by
  apply lexFuel
  omega

/-- Embeds `ReferenceConverter.convertType` (reference.ts lines 138-151):
no symbol gives the intrinsic Object placeholder; a type-literal or
object-literal flagged symbol delegates to the type-literal path
(`this.convert(context, type.symbol)`, via `convertTypeLit`); a genuine
named reference goes through Reference Resolution with its type
arguments converted through the registry in declared order. -/
def ReferenceConverter.convertType (prog : Program) (fuel : Nat) (t : TypeRef)
    (c : Context) : Option (Ty × Context) :=
  match t with
  | TypeRef.mk _ none _ => some (Ty.intrinsic ("Object"), c)
  | TypeRef.mk _ (some s) argsOpt =>
    if prog.symFlags s &&& SymbolFlags.TypeLiteral != 0 ||
        prog.symFlags s &&& SymbolFlags.ObjectLiteral != 0 then
      convertTypeLit prog fuel s c
    else
      match argsOpt with
      | none => some (createReferenceType c s, c)
      | some args =>
        match convertTypeList prog fuel args c with
        | none => none
        | some (tys, c') => some ((createReferenceType c s).withTypeArguments tys, c')
termination_by (fuel, sizeOf t, 1)
decreasing_by
  · apply lexSize
    first
    | (simp; omega)
    | simp
  · apply lexSize
    first
    | (simp; omega)
    | simp

/-- Modelled from the spec: `typeArguments.map((t) => convertType(context, ...))`,
converting each explicit type argument through the registry, results in
declared order. -/
def convertTypeList (prog : Program) (fuel : Nat) (l : List TypeRef) (c : Context) :
    Option (List Ty × Context) :=
  match l with
  | [] => some ([], c)
  | a :: rest =>
    match convertType prog fuel a c with
    | none => none
    | some (ty, c') =>
      match convertTypeList prog fuel rest c' with
      | none => none
      | some (tys, c'') => some (ty :: tys, c'')
termination_by (fuel, sizeOf l, 2)
decreasing_by
  · apply lexSize
    have h : sizeOf (a :: rest) = 1 + sizeOf a + sizeOf rest := by simp
    omega
  · apply lexSize
    have h : sizeOf (a :: rest) = 1 + sizeOf a + sizeOf rest := by simp
    omega

end

/-- Embeds `ReferenceConverter.convert` (reference.ts lines 64-90): looks
the symbol up and runs the cycle-safe type-literal path on its
declarations. -/
def ReferenceConverter.convert (prog : Program) (fuel : Nat) (c : Context)
    (sym : Nat) (node : Option Nat) : Option (Ty × Context) :=
  match prog.getSymbol sym with
  | none => none
  | some sd => convertSym prog fuel c sym node sd

/-- Embeds `ReferenceConverter.convertNode` (reference.ts lines 108-121):
same branching as `convertType`, but the type-literal path receives the
originating syntax node and the type arguments come from the source
site's syntax (`node.typeArguments`). -/
def ReferenceConverter.convertNode (prog : Program) (fuel : Nat) (node : TypeRefNode)
    (t : TypeRef) (c : Context) : Option (Ty × Context) :=
  match t.symbol with
  | none => some (Ty.intrinsic ("Object"), c)
  | some s =>
    if prog.symFlags s &&& SymbolFlags.TypeLiteral != 0 ||
        prog.symFlags s &&& SymbolFlags.ObjectLiteral != 0 then
      match fuel with
      | 0 => none
      | f + 1 => ReferenceConverter.convert prog f c s (some node.id)
    else
      match node.typeArguments with
      | none => some (createReferenceType c s, c)
      | some args =>
        match convertTypeList prog fuel args c with
        | none => none
        | some (tys, c') => some ((createReferenceType c s).withTypeArguments tys, c')

/-- Modelled from the spec: the post-pass of Reference Resolution. Once
the whole tree is built it re-resolves a pending reference by looking the
symbol up in the final registry, degrading to the external/unknown
marker (never an error) when the symbol was never registered. -/
def resolveReference (registry : List (Nat × Nat)) : Ty → Ty
  | Ty.reference s RefState.pending args =>
    match lookupRegistry registry s with
    | some id => Ty.reference s (RefState.resolved id) args
    | none => Ty.reference s RefState.unknown args
  | t => t


/-- Unfolding of `ReferenceConverter.convert` on the cycle-detected path:
some declaration of the symbol is on the visit stack, and the first such
declaration decides the short-circuit target. -/
theorem convert_cycle_eq (prog : Program) (fuel : Nat) (c : Context) (sym : Nat)
    (node : Option Nat) (sd : SymbolData) (d : Declaration)
    (hsym : prog.getSymbol sym = some sd)
    (hd : sd.declarations.find? (fun x => c.visitStack.contains x.id) = some d) :
    ReferenceConverter.convert prog fuel c sym node =
      some (createReferenceType c
        (if d.kind == NodeKind.typeLiteral || d.kind == NodeKind.objectLiteralExpression
          then d.parentSymbol else d.symbol), c) := by
  simp only [ReferenceConverter.convert, hsym]
  rw [convertSym.eq_def]
  simp only [hd]
  by_cases h : (d.kind == NodeKind.typeLiteral || d.kind == NodeKind.objectLiteralExpression) = true
  · rw [if_pos h, if_pos h]
  · rw [if_neg h, if_neg h]

/-- The context state the no-cycle path of `convert` hands to the walker:
the synthetic type-literal node is created, registered and announced
before any recursion, and the active scope switched to it. -/
def literalScope (c : Context) (sym : Nat) (node : Option Nat) : Context :=
  { scope := c.nextId,
    registry := (sym, c.nextId) :: c.registry,
    visitStack := c.visitStack,
    reflections := c.reflections ++
      [{ id := c.nextId, kind := ReflectionKind.typeLiteral, name := "__type",
         parent := some c.scope, type := none }],
    trace := c.trace ++ [Event.register sym c.nextId, Event.createDeclaration c.nextId node],
    nextId := c.nextId + 1 }

/-- Unfolding of `ReferenceConverter.convert` on the no-cycle path: the
synthetic type-literal node is created, registered and announced before
the walker recurses over the symbol's declarations under the new scope,
and the original scope is restored on the way out. -/
theorem convert_nocycle_eq (prog : Program) (fuel : Nat) (c : Context) (sym : Nat)
    (node : Option Nat) (sd : SymbolData)
    (hsym : prog.getSymbol sym = some sd)
    (hd : sd.declarations.find? (fun x => c.visitStack.contains x.id) = none) :
    ReferenceConverter.convert prog fuel c sym node =
      (convertNodeList prog fuel sd.declarations (literalScope c sym node)).map
        (fun c3 => (Ty.reflection c.nextId, { c3 with scope := c.scope })) := by
  unfold literalScope
  simp only [ReferenceConverter.convert, hsym]
  rw [convertSym.eq_def]
  simp only [hd]
  cases convertNodeList prog fuel sd.declarations
      { scope := c.nextId,
        registry := (sym, c.nextId) :: c.registry,
        visitStack := c.visitStack,
        reflections := c.reflections ++
          [{ id := c.nextId, kind := ReflectionKind.typeLiteral, name := "__type",
             parent := some c.scope, type := none }],
        trace := c.trace ++ [Event.register sym c.nextId, Event.createDeclaration c.nextId node],
        nextId := c.nextId + 1 } with
  | none => rfl
  | some c3 => rfl

/-- The reflection ids carried by the creation notifications of a trace,
in emission order. -/
def createdIds (t : List Event) : List Nat :=
  t.filterMap (fun e => match e with
    | Event.createDeclaration r _ => some r
    | _ => none)

/-- The number of distinct declarations of the program that are not
currently on the visit stack: the quantity that bounds the remaining
literal-conversion nesting depth. -/
def gapOf (prog : Program) (st : List Nat) : Nat :=
  ((progDeclIds prog).dedup.filter (fun x => !(st.contains x))).length

/-- Frame facts of one conversion step: visit stack and scope are
restored, node ids grow monotonically, and the trace is extended only by
new events whose created ids are all fresh. -/
def StepFrame (c c' : Context) : Prop :=
  c'.visitStack = c.visitStack ∧ c'.scope = c.scope ∧ c.nextId ≤ c'.nextId ∧
    ∃ t, c'.trace = c.trace ++ t ∧ ∀ i ∈ createdIds t, c.nextId ≤ i

theorem createdIds_append (s t : List Event) :
    createdIds (s ++ t) = createdIds s ++ createdIds t :=
  List.filterMap_append s t _

theorem StepFrame.refl (c : Context) : StepFrame c c :=
  ⟨rfl, rfl, Nat.le_refl _, [], by simp, by simp [createdIds]⟩

theorem StepFrame.trans {a b c : Context} (h1 : StepFrame a b) (h2 : StepFrame b c) :
    StepFrame a c := by
  obtain ⟨hs1, hc1, hn1, t1, ht1, hf1⟩ := h1
  obtain ⟨hs2, hc2, hn2, t2, ht2, hf2⟩ := h2
  refine ⟨hs2.trans hs1, hc2.trans hc1, hn1.trans hn2, t1 ++ t2, ?_, ?_⟩
  · rw [ht2, ht1, List.append_assoc]
  · intro i hi
    rw [createdIds_append, List.mem_append] at hi
    cases hi with
    | inl h => exact hf1 i h
    | inr h => exact hn1.trans (hf2 i h)

theorem length_filter_lt {α : Type} (p q : α → Bool) (l : List α) (a : α)
    (ha : a ∈ l) (hpa : p a = true) (hqa : q a = false)
    (himp : ∀ x, q x = true → p x = true) :
    (l.filter q).length < (l.filter p).length := by
  induction l with
  | nil => cases ha
  | cons x xs ih =>
    have hle : (xs.filter q).length ≤ (xs.filter p).length := by
      apply List.Sublist.length_le
      exact List.monotone_filter_right xs himp
    cases ha with
    | head =>
      rw [List.filter_cons_of_neg (by simp [hqa]), List.filter_cons_of_pos hpa]
      simp only [List.length_cons]
      omega
    | tail _ hmem =>
      have h := ih hmem
      cases hq : q x with
      | true =>
        rw [List.filter_cons_of_pos hq, List.filter_cons_of_pos (himp x hq)]
        simp only [List.length_cons]
        omega
      | false =>
        cases hp : p x with
        | true =>
          rw [List.filter_cons_of_neg (by simp [hq]), List.filter_cons_of_pos hp]
          simp only [List.length_cons]
          omega
        | false =>
          rw [List.filter_cons_of_neg (by simp [hq]), List.filter_cons_of_neg (by simp [hp])]
          exact h

/-- Pushing a program declaration that is not yet on the visit stack
strictly decreases the gap. -/
theorem gap_push (prog : Program) (st : List Nat) (d : Nat)
    (hmem : d ∈ progDeclIds prog) (hfresh : st.contains d = false) :
    gapOf prog (d :: st) < gapOf prog st := by
  apply length_filter_lt _ _ _ d
  · exact List.mem_dedup.mpr hmem
  · rw [hfresh]
    rfl
  · simp
  · intro x hx
    simp only [Bool.not_eq_true', List.contains_cons] at hx ⊢
    cases h : st.contains x with
    | true => rw [h, Bool.or_true] at hx; cases hx
    | false => rfl

theorem declId_mem_progDeclIds (prog : Program) (s : Nat) (sd : SymbolData)
    (d : Declaration) (hsym : prog.getSymbol s = some sd) (hd : d ∈ sd.declarations) :
    d.id ∈ progDeclIds prog := by
  unfold Program.getSymbol at hsym
  rw [Option.map_eq_some'] at hsym
  obtain ⟨e, hfind, hsd⟩ := hsym
  have he : e ∈ prog.symbols := List.mem_of_find?_eq_some hfind
  unfold progDeclIds
  rw [List.mem_flatMap]
  refine ⟨e, he, ?_⟩
  rw [hsd]
  exact List.mem_map_of_mem _ hd

theorem getSymbol_of_symFlags_ne (prog : Program) (s : Nat)
    (h : prog.symFlags s ≠ 0) : ∃ sd, prog.getSymbol s = some sd := by
  cases hs : prog.getSymbol s with
  | none => exfalso; apply h; unfold Program.symFlags; rw [hs]; rfl
  | some sd => exact ⟨sd, rfl⟩

/-- Success and frame facts for every converter entry point, by strong
induction on fuel. Fuel exceeding the number of distinct declarations not
yet on the visit stack never runs out — the cycle check fires before any
further node is created — and every call restores the visit stack and
scope, grows node ids monotonically and emits only fresh creation
events. -/
theorem convert_master (prog : Program) : ∀ fuel : Nat,
    (∀ c sym node sd, prog.getSymbol sym = some sd →
      gapOf prog c.visitStack ≤ fuel →
      ∃ r c', convertSym prog fuel c sym node sd = some (r, c') ∧ StepFrame c c') ∧
    (∀ l c, (∀ d ∈ l, c.visitStack.contains d.id = false ∧ d.id ∈ progDeclIds prog) →
      gapOf prog c.visitStack ≤ fuel →
      ∃ c', convertNodeList prog fuel l c = some c' ∧ StepFrame c c') ∧
    (∀ d c, c.visitStack.contains d.id = false → d.id ∈ progDeclIds prog →
      gapOf prog c.visitStack ≤ fuel →
      ∃ c', convertNode prog fuel d c = some c' ∧ StepFrame c c') ∧
    (∀ l c, gapOf prog c.visitStack < fuel →
      ∃ c', convertMembers prog fuel l c = some c' ∧ StepFrame c c') ∧
    (∀ t c, gapOf prog c.visitStack < fuel →
      ∃ r c', ReferenceConverter.convertType prog fuel t c = some (r, c') ∧ StepFrame c c') ∧
    (∀ t c, gapOf prog c.visitStack < fuel →
      ∃ r c', convertType prog fuel t c = some (r, c') ∧ StepFrame c c') ∧
    (∀ l c, gapOf prog c.visitStack < fuel →
      ∃ rs c', convertTypeList prog fuel l c = some (rs, c') ∧ StepFrame c c') := by
  intro fuel
  induction fuel using Nat.strong_induction_on with
  | _ fuel IH =>
  have cluster : ∀ n : Nat,
      (∀ t c, sizeOf t ≤ n → gapOf prog c.visitStack < fuel →
        ∃ r c', ReferenceConverter.convertType prog fuel t c = some (r, c') ∧ StepFrame c c') ∧
      (∀ t c, sizeOf t ≤ n → gapOf prog c.visitStack < fuel →
        ∃ r c', convertType prog fuel t c = some (r, c') ∧ StepFrame c c') ∧
      (∀ l c, sizeOf l ≤ n → gapOf prog c.visitStack < fuel →
        ∃ rs c', convertTypeList prog fuel l c = some (rs, c') ∧ StepFrame c c') := by
    intro n
    induction n using Nat.strong_induction_on with
    | _ n IHn =>
    have hRC : ∀ t c, sizeOf t ≤ n → gapOf prog c.visitStack < fuel →
        ∃ r c', ReferenceConverter.convertType prog fuel t c = some (r, c') ∧ StepFrame c c' := by
      intro t c hsize hgap
      obtain ⟨fl, so, ao⟩ := t
      cases so with
      | none =>
        refine ⟨Ty.intrinsic ("Object"), c, ?_, StepFrame.refl c⟩
        rw [ReferenceConverter.convertType.eq_def]
      | some s =>
        by_cases hlit : (prog.symFlags s &&& SymbolFlags.TypeLiteral != 0 ||
            prog.symFlags s &&& SymbolFlags.ObjectLiteral != 0) = true
        · have hfne : prog.symFlags s ≠ 0 := by
            intro h0
            rw [h0] at hlit
            simp [Nat.zero_and] at hlit
          obtain ⟨sd, hsd⟩ := getSymbol_of_symFlags_ne prog s hfne
          obtain ⟨f, rfl⟩ : ∃ f, fuel = f + 1 := ⟨fuel - 1, by omega⟩
          obtain ⟨r, c', heq, hframe⟩ :=
            (IH f (by omega)).1 c s none sd hsd (by omega)
          refine ⟨r, c', ?_, hframe⟩
          rw [ReferenceConverter.convertType.eq_def]
          simp only [hlit, if_true]
          rw [convertTypeLit.eq_def]
          simp only [hsd, heq]
        · cases ao with
          | none =>
            refine ⟨createReferenceType c s, c, ?_, StepFrame.refl c⟩
            rw [ReferenceConverter.convertType.eq_def]
            simp only [hlit, if_false]
            simp [hlit]
          | some args =>
            have hsz : sizeOf args < n := by
              have h1 : sizeOf args < sizeOf (TypeRef.mk fl (some s) (some args)) := by
                first
                | (simp; omega)
                | simp
              omega
            obtain ⟨rs, c', heq, hframe⟩ :=
              ((IHn (sizeOf args) hsz).2.2) args c (Nat.le_refl _) hgap
            refine ⟨(createReferenceType c s).withTypeArguments rs, c', ?_, hframe⟩
            rw [ReferenceConverter.convertType.eq_def]
            simp only [hlit, if_false, heq]
            simp [hlit, heq]
    have hDisp : ∀ t c, sizeOf t ≤ n → gapOf prog c.visitStack < fuel →
        ∃ r c', convertType prog fuel t c = some (r, c') ∧ StepFrame c c' := by
      intro t c hsize hgap
      by_cases hsup : ReferenceConverter.supportsType c t = true
      · obtain ⟨r, c', heq, hframe⟩ := hRC t c hsize hgap
        refine ⟨r, c', ?_, hframe⟩
        rw [convertType.eq_def]
        simp only [hsup, if_true, heq]
      · refine ⟨Ty.intrinsic ("unknown"), c, ?_, StepFrame.refl c⟩
        rw [convertType.eq_def]
        simp only [hsup, if_false]
        simp [hsup]
    refine ⟨hRC, hDisp, ?_⟩
    intro l c hsize hgap
    cases l with
    | nil =>
      refine ⟨[], c, ?_, StepFrame.refl c⟩
      rw [convertTypeList.eq_def]
    | cons a rest =>
      have hsa : sizeOf a < n := by
        have : sizeOf (a :: rest) = 1 + sizeOf a + sizeOf rest := by simp
        omega
      have hsr : sizeOf rest < n := by
        have : sizeOf (a :: rest) = 1 + sizeOf a + sizeOf rest := by simp
        omega
      obtain ⟨r1, c1, heq1, hframe1⟩ := (IHn (sizeOf a) hsa).2.1 a c (Nat.le_refl _) hgap
      have hgap1 : gapOf prog c1.visitStack < fuel := by
        rw [hframe1.1]
        exact hgap
      obtain ⟨rs, c2, heq2, hframe2⟩ :=
        (IHn (sizeOf rest) hsr).2.2 rest c1 (Nat.le_refl _) hgap1
      refine ⟨r1 :: rs, c2, ?_, hframe1.trans hframe2⟩
      rw [convertTypeList.eq_def]
      simp only [heq1, heq2]
  have h5 : ∀ t c, gapOf prog c.visitStack < fuel →
      ∃ r c', ReferenceConverter.convertType prog fuel t c = some (r, c') ∧ StepFrame c c' :=
    fun t c h => (cluster (sizeOf t)).1 t c (Nat.le_refl _) h
  have h6 : ∀ t c, gapOf prog c.visitStack < fuel →
      ∃ r c', convertType prog fuel t c = some (r, c') ∧ StepFrame c c' :=
    fun t c h => (cluster (sizeOf t)).2.1 t c (Nat.le_refl _) h
  have h7 : ∀ l c, gapOf prog c.visitStack < fuel →
      ∃ rs c', convertTypeList prog fuel l c = some (rs, c') ∧ StepFrame c c' :=
    fun l c h => (cluster (sizeOf l)).2.2 l c (Nat.le_refl _) h
  have h4 : ∀ l c, gapOf prog c.visitStack < fuel →
      ∃ c', convertMembers prog fuel l c = some c' ∧ StepFrame c c' := by
    intro l
    induction l with
    | nil =>
      intro c hgap
      refine ⟨c, ?_, StepFrame.refl c⟩
      rw [convertMembers.eq_def]
    | cons m rest ih =>
      intro c hgap
      obtain ⟨ty, c2, heq2, hframe2⟩ := h6 m.ty
        { c with nextId := c.nextId + 1,
                 reflections := c.reflections ++
                   [{ id := c.nextId, kind := ReflectionKind.property, name := m.name,
                      parent := some c.scope, type := none }],
                 trace := c.trace ++ [Event.createDeclaration c.nextId none] }
        hgap
      have hframeA : StepFrame c
          { c with nextId := c.nextId + 1,
                   reflections := c.reflections ++
                     [{ id := c.nextId, kind := ReflectionKind.property, name := m.name,
                        parent := some c.scope, type := none }],
                   trace := c.trace ++ [Event.createDeclaration c.nextId none] } := by
        refine ⟨rfl, rfl, Nat.le_succ _, [Event.createDeclaration c.nextId none], rfl, ?_⟩
        intro i hi
        simp [createdIds] at hi
        omega
      have hgap2 : gapOf prog
          ({ c2 with reflections := setReflType c2.reflections c.nextId ty } : Context).visitStack < fuel := by
        have hst : c2.visitStack = c.visitStack := hframe2.1
        show gapOf prog c2.visitStack < fuel
        rw [hst]
        exact hgap
      obtain ⟨c', heq', hframe'⟩ := ih { c2 with reflections := setReflType c2.reflections c.nextId ty } hgap2
      have hframeB : StepFrame c2 ({ c2 with reflections := setReflType c2.reflections c.nextId ty } : Context) :=
        ⟨rfl, rfl, Nat.le_refl _, [], by simp, by simp [createdIds]⟩
      refine ⟨c', ?_, ((hframeA.trans hframe2).trans hframeB).trans hframe'⟩
      rw [convertMembers.eq_def]
      simp only [heq2, heq']
  have h3 : ∀ d c, c.visitStack.contains d.id = false → d.id ∈ progDeclIds prog →
      gapOf prog c.visitStack ≤ fuel →
      ∃ c', convertNode prog fuel d c = some c' ∧ StepFrame c c' := by
    intro d c hfresh hmem hgap
    have hgap1 : gapOf prog
        ({ c with visitStack := d.id :: c.visitStack,
                  trace := c.trace ++ [Event.pushDecl d.id] } : Context).visitStack < fuel := by
      show gapOf prog (d.id :: c.visitStack) < fuel
      have := gap_push prog c.visitStack d.id hmem hfresh
      omega
    obtain ⟨c2, heq2, hframe2⟩ := h4 d.members
      { c with visitStack := d.id :: c.visitStack,
               trace := c.trace ++ [Event.pushDecl d.id] } hgap1
    refine ⟨{ c2 with visitStack := c.visitStack,
                      trace := c2.trace ++ [Event.popDecl d.id] }, ?_, ?_⟩
    · rw [convertNode.eq_def]
      simp only [heq2]
    · obtain ⟨hs2, hc2, hn2, t2, ht2, hf2⟩ := hframe2
      refine ⟨rfl, hc2, hn2, [Event.pushDecl d.id] ++ t2 ++ [Event.popDecl d.id], ?_, ?_⟩
      · show c2.trace ++ [Event.popDecl d.id] = _
        rw [ht2]
        simp
      · intro i hi
        rw [createdIds_append, createdIds_append] at hi
        simp only [List.mem_append] at hi
        rcases hi with (hi | hi) | hi
        · simp [createdIds] at hi
        · exact hf2 i hi
        · simp [createdIds] at hi
  have h2 : ∀ l c, (∀ d ∈ l, c.visitStack.contains d.id = false ∧ d.id ∈ progDeclIds prog) →
      gapOf prog c.visitStack ≤ fuel →
      ∃ c', convertNodeList prog fuel l c = some c' ∧ StepFrame c c' := by
    intro l
    induction l with
    | nil =>
      intro c _ _
      refine ⟨c, ?_, StepFrame.refl c⟩
      rw [convertNodeList.eq_def]
    | cons d rest ih =>
      intro c hall hgap
      obtain ⟨c1, heq1, hframe1⟩ :=
        h3 d c (hall d (List.mem_cons_self d rest)).1 (hall d (List.mem_cons_self d rest)).2 hgap
      have hall1 : ∀ x ∈ rest, c1.visitStack.contains x.id = false ∧ x.id ∈ progDeclIds prog := by
        intro x hx
        rw [hframe1.1]
        exact hall x (List.mem_cons_of_mem d hx)
      have hgap1 : gapOf prog c1.visitStack ≤ fuel := by
        rw [hframe1.1]
        exact hgap
      obtain ⟨c', heq', hframe'⟩ := ih c1 hall1 hgap1
      refine ⟨c', ?_, hframe1.trans hframe'⟩
      rw [convertNodeList.eq_def]
      simp only [heq1, heq']
  have h1 : ∀ c sym node sd, prog.getSymbol sym = some sd →
      gapOf prog c.visitStack ≤ fuel →
      ∃ r c', convertSym prog fuel c sym node sd = some (r, c') ∧ StepFrame c c' := by
    intro c sym node sd hsym hgap
    cases hfind : sd.declarations.find? (fun d => c.visitStack.contains d.id) with
    | some d =>
      refine ⟨createReferenceType c
        (if d.kind == NodeKind.typeLiteral || d.kind == NodeKind.objectLiteralExpression
          then d.parentSymbol else d.symbol), c, ?_, StepFrame.refl c⟩
      rw [convertSym.eq_def]
      simp only [hfind]
      by_cases h : (d.kind == NodeKind.typeLiteral || d.kind == NodeKind.objectLiteralExpression) = true
      · rw [if_pos h, if_pos h]
      · rw [if_neg h, if_neg h]
    | none =>
      have hall : ∀ d ∈ sd.declarations,
          (({ c with scope := c.nextId,
                     registry := (sym, c.nextId) :: c.registry,
                     reflections := c.reflections ++
                       [{ id := c.nextId, kind := ReflectionKind.typeLiteral, name := "__type",
                          parent := some c.scope, type := none }],
                     trace := c.trace ++ [Event.register sym c.nextId, Event.createDeclaration c.nextId node],
                     nextId := c.nextId + 1 } : Context)).visitStack.contains d.id = false ∧
            d.id ∈ progDeclIds prog := by
        intro d hd
        constructor
        · show c.visitStack.contains d.id = false
          have := List.find?_eq_none.mp hfind d hd
          cases h : c.visitStack.contains d.id with
          | true => exact absurd h this
          | false => rfl
        · exact declId_mem_progDeclIds prog sym sd d hsym hd
      obtain ⟨c3, heq3, hframe3⟩ := h2 sd.declarations
        { c with scope := c.nextId,
                 registry := (sym, c.nextId) :: c.registry,
                 reflections := c.reflections ++
                   [{ id := c.nextId, kind := ReflectionKind.typeLiteral, name := "__type",
                      parent := some c.scope, type := none }],
                 trace := c.trace ++ [Event.register sym c.nextId, Event.createDeclaration c.nextId node],
                 nextId := c.nextId + 1 }
        hall (by show gapOf prog c.visitStack ≤ fuel; exact hgap)
      refine ⟨Ty.reflection c.nextId, { c3 with scope := c.scope }, ?_, ?_⟩
      · rw [convertSym.eq_def]
        simp only [hfind, heq3]
      · obtain ⟨hs3, hc3, hn3, t3, ht3, hf3⟩ := hframe3
        have hn3' : c.nextId + 1 ≤ c3.nextId := hn3
        refine ⟨hs3, rfl, ?_,
          [Event.register sym c.nextId, Event.createDeclaration c.nextId node] ++ t3, ?_, ?_⟩
        · show c.nextId ≤ c3.nextId
          omega
        · show c3.trace = _
          rw [ht3]
          simp
        · intro i hi
          rw [createdIds_append] at hi
          rw [List.mem_append] at hi
          cases hi with
          | inl h =>
            simp [createdIds] at h
            omega
          | inr h =>
            have h2 : c.nextId + 1 ≤ i := hf3 i h
            show c.nextId ≤ i
            omega
  exact ⟨h1, h2, h3, h4, h5, h6, h7⟩

/- Concrete self-referential type-literal scenario: symbol 1 carries the
type-literal flag; its single declaration (id 10, a function-type shaped
literal) has one member `self` whose type is the anonymous object type
owned by symbol 1 again — the `type T = { self: T }` shape. -/

def demoMember : Member :=
  { name := "self", ty := TypeRef.mk TypeFlags.Anonymous (some 1) none }

def demoDecl : Declaration :=
  { id := 10, kind := NodeKind.functionType, symbol := 1, parentSymbol := 0,
    members := [demoMember] }

def demoSd : SymbolData :=
  { flags := SymbolFlags.TypeLiteral, declarations := [demoDecl] }

def demoProg : Program := ⟨[(1, demoSd)]⟩

def demoRoot : DeclarationReflection :=
  { id := 0, kind := ReflectionKind.module, name := "root", parent := none, type := none }

def demoCtx : Context :=
  { scope := 0, registry := [], visitStack := [], reflections := [demoRoot],
    trace := [], nextId := 1 }

def demoTy : TypeRef := TypeRef.mk TypeFlags.Anonymous (some 1) none

def demoLit : DeclarationReflection :=
  { id := 1, kind := ReflectionKind.typeLiteral, name := "__type",
    parent := some 0, type := none }

def demoSelfTyped : DeclarationReflection :=
  { id := 2, kind := ReflectionKind.property, name := "self", parent := some 1,
    type := some (Ty.reference 1 (RefState.resolved 1) none) }

def demoCtxE : Context :=
  { scope := 1, registry := [(1, 1)], visitStack := [10],
    reflections := [demoRoot, demoLit, demoSelfTyped],
    trace := [Event.register 1 1, Event.createDeclaration 1 none, Event.pushDecl 10,
              Event.createDeclaration 2 none],
    nextId := 3 }

def demoCtxFinal : Context :=
  { scope := 0, registry := [(1, 1)], visitStack := [],
    reflections := [demoRoot, demoLit, demoSelfTyped],
    trace := [Event.register 1 1, Event.createDeclaration 1 none, Event.pushDecl 10,
              Event.createDeclaration 2 none, Event.popDecl 10],
    nextId := 3 }

set_option maxRecDepth 8000 in
theorem demoRun_eq :
    convertType demoProg 2 demoTy demoCtx = some (Ty.reflection 1, demoCtxFinal) := by
  simp [convertType, ReferenceConverter.convertType, convertTypeLit, convertSym,
    convertNodeList, convertNode, convertMembers, convertTypeList,
    ReferenceConverter.supportsType, demoProg, demoSd, demoDecl, demoMember,
    demoCtx, demoTy, demoRoot, demoLit, demoSelfTyped, demoCtxFinal,
    Program.getSymbol, Program.symFlags, TypeRef.symbol, TypeRef.flags,
    TypeRef.typeArguments, TypeFlags.Anonymous, TypeFlags.ObjectType,
    TypeFlags.Class, TypeFlags.Interface, TypeFlags.Reference, TypeFlags.Tuple,
    SymbolFlags.TypeLiteral, SymbolFlags.ObjectLiteral,
    createReferenceType, lookupRegistry, setReflType, List.find?, List.contains]

/-- On the no-cycle path every declaration of the symbol is fresh on the
walker's starting stack and belongs to the program. -/
theorem literalScope_all_fresh (prog : Program) (c : Context) (sym : Nat)
    (node : Option Nat) (sd : SymbolData)
    (hsym : prog.getSymbol sym = some sd)
    (hd : sd.declarations.find? (fun x => c.visitStack.contains x.id) = none) :
    ∀ d ∈ sd.declarations,
      (literalScope c sym node).visitStack.contains d.id = false ∧
        d.id ∈ progDeclIds prog := by
  intro d hmem
  constructor
  · show c.visitStack.contains d.id = false
    have h := List.find?_eq_none.mp hd d hmem
    cases hc : c.visitStack.contains d.id with
    | true => exact absurd hc h
    | false => rfl
  · exact declId_mem_progDeclIds prog sym sd d hsym hmem

/- Additional concrete data for the claim witnesses: a call with the
declaration already mid-conversion (cycle path), a zero-declaration
symbol, and a generic reference with one type argument. -/

def demoCtxCycle : Context :=
  { scope := 0, registry := [(1, 1)], visitStack := [10],
    reflections := [demoRoot], trace := [], nextId := 2 }

def ctx0 : Context :=
  { scope := 0, registry := [], visitStack := [], reflections := [],
    trace := [], nextId := 0 }

def progC4 : Program := ⟨[(5, { flags := 4, declarations := [] })]⟩

def tyC4 : TypeRef := TypeRef.mk TypeFlags.Reference (some 5) none

def nodeC4 : TypeRefNode := { id := 77, typeArguments := none }

def progC6 : Program := ⟨[(3, { flags := 4, declarations := [] })]⟩

def argC6 : TypeRef := TypeRef.mk TypeFlags.String none none

def tyC6 : TypeRef := TypeRef.mk TypeFlags.Reference (some 3) (some [argC6])

def nodeC6 : TypeRefNode := { id := 9, typeArguments := some [argC6] }

def nodeC5 : TypeRefNode := { id := 11, typeArguments := none }

theorem createReferenceType_is_reference (c : Context) (x : Nat) :
    ∃ st, createReferenceType c x = Ty.reference x st none := by
  unfold createReferenceType
  cases lookupRegistry c.registry x with
  | none => exact ⟨RefState.pending, rfl⟩
  | some i => exact ⟨RefState.resolved i, rfl⟩

/-- C1: when a symbol passed to the type-literal conversion has a
declaration currently on the Context's visit stack, `ReferenceConverter.convert`
short-circuits — returning at once, with the context unchanged, for every
fuel — and yields a Reference Type Node whose target symbol is the parent
declaration's symbol when the matched (first such) declaration is a
type-literal or object-literal-expression declaration, and the matched
declaration's own symbol otherwise. -/
theorem claim_C1 (prog : Program) (fuel : Nat) (c : Context) (sym : Nat)
    (node : Option Nat) (sd : SymbolData) (d : Declaration)
    (hsym : prog.getSymbol sym = some sd)
    (hd : sd.declarations.find? (fun x => c.visitStack.contains x.id) = some d) :
    ReferenceConverter.convert prog fuel c sym node =
      some (createReferenceType c
        (if d.kind == NodeKind.typeLiteral || d.kind == NodeKind.objectLiteralExpression
          then d.parentSymbol else d.symbol), c) ∧
    ∃ st, createReferenceType c
        (if d.kind == NodeKind.typeLiteral || d.kind == NodeKind.objectLiteralExpression
          then d.parentSymbol else d.symbol) =
      Ty.reference
        (if d.kind == NodeKind.typeLiteral || d.kind == NodeKind.objectLiteralExpression
          then d.parentSymbol else d.symbol) st none :=
  ⟨convert_cycle_eq prog fuel c sym node sd d hsym hd,
   createReferenceType_is_reference c _⟩

theorem claim_C1_witness :
    ReferenceConverter.convert demoProg 3 demoCtxCycle 1 none =
      some (createReferenceType demoCtxCycle
        (if demoDecl.kind == NodeKind.typeLiteral || demoDecl.kind == NodeKind.objectLiteralExpression
          then demoDecl.parentSymbol else demoDecl.symbol), demoCtxCycle) ∧
    ∃ st, createReferenceType demoCtxCycle
        (if demoDecl.kind == NodeKind.typeLiteral || demoDecl.kind == NodeKind.objectLiteralExpression
          then demoDecl.parentSymbol else demoDecl.symbol) =
      Ty.reference
        (if demoDecl.kind == NodeKind.typeLiteral || demoDecl.kind == NodeKind.objectLiteralExpression
          then demoDecl.parentSymbol else demoDecl.symbol) st none :=
  claim_C1 demoProg 3 demoCtxCycle 1 none demoSd demoDecl rfl rfl

/-- C4 counterexample: the claim as stated fails on the code. Symbol 5
exists but has zero declarations; converting a type owned by it yields a
(pending) Reference Type Node, not the Intrinsic Object placeholder. -/
theorem claim_C4_counterexample :
    progC4.getSymbol 5 = some { flags := 4, declarations := [] } ∧
    ReferenceConverter.convertType progC4 1 tyC4 ctx0 =
      some (Ty.reference 5 RefState.pending none, ctx0) ∧
    ReferenceConverter.convertNode progC4 1 nodeC4 tyC4 ctx0 =
      some (Ty.reference 5 RefState.pending none, ctx0) ∧
    Ty.reference 5 RefState.pending none ≠ Ty.intrinsic ("Object") := by
  have h1 : (progC4.symFlags 5 &&& SymbolFlags.TypeLiteral != 0 ||
      progC4.symFlags 5 &&& SymbolFlags.ObjectLiteral != 0) = false := by decide
  have h2 : tyC4 = TypeRef.mk TypeFlags.Reference (some 5) none := rfl
  refine ⟨rfl, ?_, ?_, by simp⟩
  · rw [h2, ReferenceConverter.convertType.eq_def]
    simp only [h1]
    simp [createReferenceType, lookupRegistry, ctx0]
  · simp only [ReferenceConverter.convertNode, tyC4, TypeRef.symbol]
    simp only [h1]
    simp [nodeC4, createReferenceType, lookupRegistry, ctx0]

/-- C4 (amended): for every input type that has no owning symbol at all,
`convertNode` and `convertType` return the Intrinsic Object placeholder
and never raise; a symbol that merely has zero declarations does not take
this path. -/
theorem claim_C4 (prog : Program) (fuel : Nat) (node : TypeRefNode) (t : TypeRef)
    (c : Context) (h : t.symbol = none) :
    ReferenceConverter.convertNode prog fuel node t c = some (Ty.intrinsic ("Object"), c) ∧
    ReferenceConverter.convertType prog fuel t c = some (Ty.intrinsic ("Object"), c) := by
  obtain ⟨fl, so, ao⟩ := t
  simp only [TypeRef.symbol] at h
  subst h
  constructor
  · simp [ReferenceConverter.convertNode, TypeRef.symbol]
  · rw [ReferenceConverter.convertType.eq_def]

theorem claim_C4_witness :
    ReferenceConverter.convertNode progC4 1 nodeC4 (TypeRef.mk TypeFlags.Anonymous none none) ctx0 =
      some (Ty.intrinsic ("Object"), ctx0) ∧
    ReferenceConverter.convertType progC4 1 (TypeRef.mk TypeFlags.Anonymous none none) ctx0 =
      some (Ty.intrinsic ("Object"), ctx0) :=
  claim_C4 progC4 1 nodeC4 (TypeRef.mk TypeFlags.Anonymous none none) ctx0 rfl

/-- C8: a pending reference to a symbol that is not in the final registry
is resolved by the post-pass to the external/unknown marker, and the pass
is a total function that leaves already-resolved references intact —
it never raises. -/
theorem claim_C8 (registry : List (Nat × Nat)) (s : Nat) (args : Option (List Ty))
    (h : lookupRegistry registry s = none) :
    resolveReference registry (Ty.reference s RefState.pending args) =
      Ty.reference s RefState.unknown args ∧
    ∀ i, resolveReference registry (Ty.reference s (RefState.resolved i) args) =
      Ty.reference s (RefState.resolved i) args := by
  constructor
  · simp [resolveReference, h]
  · intro i
    rfl

theorem claim_C8_witness :
    resolveReference [] (Ty.reference 7 RefState.pending none) =
      Ty.reference 7 RefState.unknown none ∧
    ∀ i, resolveReference [] (Ty.reference 7 (RefState.resolved i) none) =
      Ty.reference 7 (RefState.resolved i) none :=
  claim_C8 [] 7 none rfl

/-- C9: `supportsNode` and `supportsType` accept a type exactly when its
flag word meets the broad object-type category mask; string, number and
boolean intrinsic types are rejected and left to other converters, while
anonymous and class object types are accepted. -/
theorem claim_C9 :
    (∀ (c : Context) (node : TypeRefNode) (t : TypeRef),
      ReferenceConverter.supportsNode c node t = true ↔
        t.flags &&& TypeFlags.ObjectType ≠ 0) ∧
    (∀ (c : Context) (t : TypeRef),
      ReferenceConverter.supportsType c t = true ↔
        t.flags &&& TypeFlags.ObjectType ≠ 0) ∧
    ReferenceConverter.supportsType ctx0 (TypeRef.mk TypeFlags.String none none) = false ∧
    ReferenceConverter.supportsType ctx0 (TypeRef.mk TypeFlags.Number none none) = false ∧
    ReferenceConverter.supportsType ctx0 (TypeRef.mk TypeFlags.Boolean none none) = false ∧
    ReferenceConverter.supportsNode ctx0 nodeC4 (TypeRef.mk TypeFlags.Number none none) = false ∧
    ReferenceConverter.supportsType ctx0 (TypeRef.mk TypeFlags.Anonymous none none) = true ∧
    ReferenceConverter.supportsType ctx0 (TypeRef.mk TypeFlags.Class none none) = true := by
  refine ⟨?_, ?_, by decide, by decide, by decide, by decide, by decide, by decide⟩
  · intro c node t
    simp [ReferenceConverter.supportsNode]
  · intro c t
    simp [ReferenceConverter.supportsType]

/-- C10: on the cycle-detected path `ReferenceConverter.convert` returns
with the context unchanged — it creates no declaration node, registers
nothing in the registry and fires no creation notification. -/
theorem claim_C10 (prog : Program) (fuel : Nat) (c : Context) (sym : Nat)
    (node : Option Nat) (sd : SymbolData) (d : Declaration)
    (hsym : prog.getSymbol sym = some sd)
    (hd : sd.declarations.find? (fun x => c.visitStack.contains x.id) = some d) :
    (∃ y, ReferenceConverter.convert prog fuel c sym node = some (y, c)) ∧
    (ReferenceConverter.convert prog fuel c sym node).map (fun p => p.2.registry) =
      some c.registry ∧
    (ReferenceConverter.convert prog fuel c sym node).map (fun p => p.2.reflections) =
      some c.reflections ∧
    (ReferenceConverter.convert prog fuel c sym node).map (fun p => p.2.trace) =
      some c.trace := by
  have h := convert_cycle_eq prog fuel c sym node sd d hsym hd
  refine ⟨⟨_, h⟩, ?_, ?_, ?_⟩ <;> (rw [h]; rfl)

theorem claim_C10_witness :
    (∃ y, ReferenceConverter.convert demoProg 2 demoCtxCycle 1 none = some (y, demoCtxCycle)) ∧
    (ReferenceConverter.convert demoProg 2 demoCtxCycle 1 none).map (fun p => p.2.registry) =
      some demoCtxCycle.registry ∧
    (ReferenceConverter.convert demoProg 2 demoCtxCycle 1 none).map (fun p => p.2.reflections) =
      some demoCtxCycle.reflections ∧
    (ReferenceConverter.convert demoProg 2 demoCtxCycle 1 none).map (fun p => p.2.trace) =
      some demoCtxCycle.trace :=
  claim_C10 demoProg 2 demoCtxCycle 1 none demoSd demoDecl rfl rfl

/-- C2: conversion of a self-referential type literal terminates in
bounded time. Fuel exceeding the number of distinct declarations not yet
on the visit stack (itself at most the number of distinct declarations of
the program, independent of type-structure depth) always suffices, and on
the concrete `type T = { self: T }` shaped program the run produces
exactly one synthetic `__type` node whose `self` member is a Reference
Type Node resolved back to that node — no unbounded or duplicated
chain. -/
theorem claim_C2 :
    (∀ (prog : Program) (fuel : Nat) (t : TypeRef) (c : Context),
      gapOf prog c.visitStack < fuel →
      ∃ r c', convertType prog fuel t c = some (r, c') ∧ c'.visitStack = c.visitStack) ∧
    (∀ (prog : Program) (st : List Nat),
      gapOf prog st ≤ (progDeclIds prog).dedup.length) ∧
    convertType demoProg 2 demoTy demoCtx = some (Ty.reflection 1, demoCtxFinal) ∧
    (demoCtxFinal.reflections.filter (fun r => r.name == "__type")).length = 1 ∧
    demoCtxFinal.reflections.find? (fun r => r.id == 1) = some demoLit ∧
    demoLit.name = "__type" ∧
    demoCtxFinal.reflections.find? (fun r => r.name == "self") = some demoSelfTyped ∧
    demoSelfTyped.parent = some 1 ∧
    demoSelfTyped.type = some (Ty.reference 1 (RefState.resolved 1) none) ∧
    gapOf demoProg demoCtx.visitStack = 1 := by
  refine ⟨?_, ?_, demoRun_eq, rfl, rfl, rfl, rfl, rfl, rfl, rfl⟩
  · intro prog fuel t c h
    obtain ⟨r, c', heq, hframe⟩ := (convert_master prog fuel).2.2.2.2.2.1 t c h
    exact ⟨r, c', heq, hframe.1⟩
  · intro prog st
    exact List.length_filter_le _ _

theorem claim_C2_witness :
    ∃ r c', convertType demoProg 2 demoTy demoCtx = some (r, c') ∧
      c'.visitStack = demoCtx.visitStack :=
  claim_C2.1 demoProg 2 demoTy demoCtx (by decide)

/-- C3: on the no-cycle path `ReferenceConverter.convert` builds the
synthetic declaration node (kind type literal, name `__type`, parented to
the current scope), registers it for the symbol before any recursion,
emits the creation notification, switches the active scope to the node,
converts every syntax declaration of the symbol as nested children
through the walker, restores scope and stack, and returns the node
wrapped as a ReflectionType — never a Reference Type Node. -/
theorem claim_C3 (prog : Program) (fuel : Nat) (c : Context) (sym : Nat)
    (node : Option Nat) (sd : SymbolData)
    (hsym : prog.getSymbol sym = some sd)
    (hd : sd.declarations.find? (fun x => c.visitStack.contains x.id) = none)
    (hgap : gapOf prog c.visitStack ≤ fuel) :
    ReferenceConverter.convert prog fuel c sym node =
      (convertNodeList prog fuel sd.declarations (literalScope c sym node)).map
        (fun c3 => (Ty.reflection c.nextId, { c3 with scope := c.scope })) ∧
    (literalScope c sym node).scope = c.nextId ∧
    lookupRegistry (literalScope c sym node).registry sym = some c.nextId ∧
    (literalScope c sym node).trace =
      c.trace ++ [Event.register sym c.nextId, Event.createDeclaration c.nextId node] ∧
    ({ id := c.nextId, kind := ReflectionKind.typeLiteral, name := "__type",
        parent := some c.scope, type := none } : DeclarationReflection) ∈
      (literalScope c sym node).reflections ∧
    ∃ c3, convertNodeList prog fuel sd.declarations (literalScope c sym node) = some c3 ∧
      c3.visitStack = c.visitStack ∧
      ReferenceConverter.convert prog fuel c sym node =
        some (Ty.reflection c.nextId, { c3 with scope := c.scope }) ∧
      ∀ s2 st a, Ty.reflection c.nextId ≠ Ty.reference s2 st a := by
  have hkey := convert_nocycle_eq prog fuel c sym node sd hsym hd
  refine ⟨hkey, rfl, ?_, rfl, ?_, ?_⟩
  · simp [literalScope, lookupRegistry]
  · simp [literalScope]
  · obtain ⟨c3, heq3, hframe3⟩ := (convert_master prog fuel).2.1 sd.declarations
      (literalScope c sym node) (literalScope_all_fresh prog c sym node sd hsym hd) hgap
    refine ⟨c3, heq3, hframe3.1, ?_, ?_⟩
    · rw [hkey, heq3]
      rfl
    · intro s2 st a h
      exact Ty.noConfusion h

theorem claim_C3_witness :
    ReferenceConverter.convert demoProg 1 demoCtx 1 none =
      (convertNodeList demoProg 1 demoSd.declarations (literalScope demoCtx 1 none)).map
        (fun c3 => (Ty.reflection demoCtx.nextId, { c3 with scope := demoCtx.scope })) ∧
    (literalScope demoCtx 1 none).scope = demoCtx.nextId ∧
    lookupRegistry (literalScope demoCtx 1 none).registry 1 = some demoCtx.nextId ∧
    (literalScope demoCtx 1 none).trace =
      demoCtx.trace ++ [Event.register 1 demoCtx.nextId,
        Event.createDeclaration demoCtx.nextId none] ∧
    ({ id := demoCtx.nextId, kind := ReflectionKind.typeLiteral, name := "__type",
        parent := some demoCtx.scope, type := none } : DeclarationReflection) ∈
      (literalScope demoCtx 1 none).reflections ∧
    ∃ c3, convertNodeList demoProg 1 demoSd.declarations (literalScope demoCtx 1 none) = some c3 ∧
      c3.visitStack = demoCtx.visitStack ∧
      ReferenceConverter.convert demoProg 1 demoCtx 1 none =
        some (Ty.reflection demoCtx.nextId, { c3 with scope := demoCtx.scope }) ∧
      ∀ s2 st a, Ty.reflection demoCtx.nextId ≠ Ty.reference s2 st a :=
  claim_C3 demoProg 1 demoCtx 1 none demoSd rfl rfl (by decide)

/-- C5: for a type whose symbol carries the type-literal or
object-literal flag, both `convertNode` and `convertType` delegate to the
type-literal path `ReferenceConverter.convert` (spending one unit of fuel
per literal nesting level; with no fuel neither produces any node) and
never take the plain-reference construction for that symbol. -/
theorem claim_C5 (prog : Program) (node : TypeRefNode) (t : TypeRef) (c : Context) (s : Nat)
    (hs : t.symbol = some s)
    (hlit : (prog.symFlags s &&& SymbolFlags.TypeLiteral != 0 ||
        prog.symFlags s &&& SymbolFlags.ObjectLiteral != 0) = true) :
    (∀ f, ReferenceConverter.convertNode prog (f + 1) node t c =
      ReferenceConverter.convert prog f c s (some node.id)) ∧
    (∀ f, ReferenceConverter.convertType prog (f + 1) t c =
      ReferenceConverter.convert prog f c s none) ∧
    ReferenceConverter.convertNode prog 0 node t c = none ∧
    ReferenceConverter.convertType prog 0 t c = none := by
  obtain ⟨fl, so, ao⟩ := t
  simp only [TypeRef.symbol] at hs
  subst hs
  refine ⟨?_, ?_, ?_, ?_⟩
  · intro f
    simp [ReferenceConverter.convertNode, TypeRef.symbol, hlit]
  · intro f
    rw [ReferenceConverter.convertType.eq_def]
    simp only [hlit, if_true]
    rw [convertTypeLit.eq_def]
    rfl
  · simp [ReferenceConverter.convertNode, TypeRef.symbol, hlit]
  · rw [ReferenceConverter.convertType.eq_def]
    simp only [hlit, if_true]
    rw [convertTypeLit.eq_def]

theorem claim_C5_witness :
    (∀ f, ReferenceConverter.convertNode demoProg (f + 1) nodeC5 demoTy demoCtx =
      ReferenceConverter.convert demoProg f demoCtx 1 (some nodeC5.id)) ∧
    (∀ f, ReferenceConverter.convertType demoProg (f + 1) demoTy demoCtx =
      ReferenceConverter.convert demoProg f demoCtx 1 none) ∧
    ReferenceConverter.convertNode demoProg 0 nodeC5 demoTy demoCtx = none ∧
    ReferenceConverter.convertType demoProg 0 demoTy demoCtx = none :=
  claim_C5 demoProg nodeC5 demoTy demoCtx 1 rfl (by decide)

/-- C6: for a genuine named reference — symbol present and not flagged as
a literal — `convertNode` and `convertType` produce the Reference Type
Node obtained from Reference Resolution; explicit type arguments of the
source site are converted one by one through the registry dispatch, left
to right, and attached in declared order. -/
theorem claim_C6 (prog : Program) (fuel : Nat) (node : TypeRefNode) (t : TypeRef)
    (c : Context) (s : Nat)
    (hs : t.symbol = some s)
    (hlit : (prog.symFlags s &&& SymbolFlags.TypeLiteral != 0 ||
        prog.symFlags s &&& SymbolFlags.ObjectLiteral != 0) = false) :
    (node.typeArguments = none →
      ReferenceConverter.convertNode prog fuel node t c = some (createReferenceType c s, c)) ∧
    (∀ args, node.typeArguments = some args →
      ReferenceConverter.convertNode prog fuel node t c =
        (convertTypeList prog fuel args c).map
          (fun p => ((createReferenceType c s).withTypeArguments p.1, p.2))) ∧
    (t.typeArguments = none →
      ReferenceConverter.convertType prog fuel t c = some (createReferenceType c s, c)) ∧
    (∀ args, t.typeArguments = some args →
      ReferenceConverter.convertType prog fuel t c =
        (convertTypeList prog fuel args c).map
          (fun p => ((createReferenceType c s).withTypeArguments p.1, p.2))) ∧
    (∀ (a : TypeRef) (rest : List TypeRef) (c0 c1 c2 : Context) (ty : Ty) (tys : List Ty),
      convertType prog fuel a c0 = some (ty, c1) →
      convertTypeList prog fuel rest c1 = some (tys, c2) →
      convertTypeList prog fuel (a :: rest) c0 = some (ty :: tys, c2)) ∧
    (∃ st, createReferenceType c s = Ty.reference s st none) := by
  obtain ⟨fl, so, ao⟩ := t
  simp only [TypeRef.symbol] at hs
  subst hs
  refine ⟨?_, ?_, ?_, ?_, ?_, createReferenceType_is_reference c s⟩
  · intro hna
    simp [ReferenceConverter.convertNode, TypeRef.symbol, hlit, hna]
  · intro args hna
    simp only [ReferenceConverter.convertNode, TypeRef.symbol, hlit, hna]
    simp only [Bool.false_eq_true, if_false]
    cases h : convertTypeList prog fuel args c with
    | none => simp [h]
    | some p =>
      obtain ⟨tys, c2⟩ := p
      simp [h]
  · intro hta
    simp only [TypeRef.typeArguments] at hta
    subst hta
    rw [ReferenceConverter.convertType.eq_def]
    simp [hlit]
  · intro args hta
    simp only [TypeRef.typeArguments] at hta
    subst hta
    rw [ReferenceConverter.convertType.eq_def]
    simp only [hlit, Bool.false_eq_true, if_false]
    cases h : convertTypeList prog fuel args c with
    | none => simp [h]
    | some p =>
      obtain ⟨tys, c2⟩ := p
      simp [h]
  · intro a rest c0 c1 c2 ty tys h1 h2
    rw [convertTypeList.eq_def]
    simp only [h1, h2]

theorem claim_C6_witness :
    ReferenceConverter.convertType progC6 1 tyC6 ctx0 =
      (convertTypeList progC6 1 [argC6] ctx0).map
        (fun p => ((createReferenceType ctx0 3).withTypeArguments p.1, p.2)) :=
  (claim_C6 progC6 1 nodeC6 tyC6 ctx0 3 rfl (by decide)).2.2.2.1 [argC6] rfl

/-- C7: whenever the converter creates a declaration node (the no-cycle
path of `convert`), exactly one creation notification fires for that
node, carrying its id and the originating syntax node when known, and it
is emitted before every event of the recursion into the node's
children. -/
theorem claim_C7 (prog : Program) (fuel : Nat) (c : Context) (sym : Nat)
    (node : Option Nat) (sd : SymbolData)
    (hsym : prog.getSymbol sym = some sd)
    (hd : sd.declarations.find? (fun x => c.visitStack.contains x.id) = none)
    (hgap : gapOf prog c.visitStack ≤ fuel)
    (hold : ∀ i ∈ createdIds c.trace, i < c.nextId) :
    ∃ y c' t,
      ReferenceConverter.convert prog fuel c sym node = some (y, c') ∧
      c'.trace = c.trace ++
        [Event.register sym c.nextId, Event.createDeclaration c.nextId node] ++ t ∧
      (∀ i ∈ createdIds t, c.nextId < i) ∧
      (createdIds c'.trace).count c.nextId = 1 := by
  obtain ⟨c3, heq3, hframe3⟩ := (convert_master prog fuel).2.1 sd.declarations
    (literalScope c sym node) (literalScope_all_fresh prog c sym node sd hsym hd) hgap
  obtain ⟨hs3, hc3, hn3, t3, ht3, hf3⟩ := hframe3
  have htr : c3.trace = c.trace ++
      [Event.register sym c.nextId, Event.createDeclaration c.nextId node] ++ t3 := by
    rw [ht3]
    show (literalScope c sym node).trace ++ t3 = _
    simp [literalScope, List.append_assoc]
  refine ⟨Ty.reflection c.nextId, { c3 with scope := c.scope }, t3, ?_, ?_, ?_, ?_⟩
  · rw [convert_nocycle_eq prog fuel c sym node sd hsym hd, heq3]
    rfl
  · show c3.trace = _
    exact htr
  · intro i hi
    have h2 : c.nextId + 1 ≤ i := hf3 i hi
    omega
  · show (createdIds c3.trace).count c.nextId = 1
    rw [htr, createdIds_append, createdIds_append, List.count_append, List.count_append]
    have h0 : (createdIds c.trace).count c.nextId = 0 := by
      rw [List.count_eq_zero]
      intro hmem
      have := hold _ hmem
      omega
    have h1 : (createdIds [Event.register sym c.nextId,
        Event.createDeclaration c.nextId node]).count c.nextId = 1 := by
      simp [createdIds]
    have h2 : (createdIds t3).count c.nextId = 0 := by
      rw [List.count_eq_zero]
      intro hmem
      have h3 : c.nextId + 1 ≤ c.nextId := hf3 _ hmem
      omega
    omega

theorem claim_C7_witness :
    ∃ y c' t,
      ReferenceConverter.convert demoProg 1 demoCtx 1 none = some (y, c') ∧
      c'.trace = demoCtx.trace ++
        [Event.register 1 demoCtx.nextId, Event.createDeclaration demoCtx.nextId none] ++ t ∧
      (∀ i ∈ createdIds t, demoCtx.nextId < i) ∧
      (createdIds c'.trace).count demoCtx.nextId = 1 :=
  claim_C7 demoProg 1 demoCtx 1 none demoSd rfl rfl (by decide)
    (by intro i hi; simp [createdIds, demoCtx] at hi)
